import Mathlib

/-!
# Verification of the science-fictions-analysis podcast pipeline

Shallow embedding of `src/analyze_podcast.py` and `src/generate_report_only.py`.
Python strings are modelled as Lean `String` / `List Char`; the ASCII fragment of
Python's case folding, `\w`, `\s` and `\d` character classes is modelled (every
input exercised by the specification and its examples is ASCII).  Filesystem
state is modelled as the list of file names present in the relevant cache
directory, and network effects as explicit boolean/string parameters.
-/

namespace SciFi

/-- ASCII lower-casing of one character, the fragment of Python's case folding
    used by `re.IGNORECASE` and `str.lower()` on the inputs of this program. -/
def lowerChar (c : Char) : Char :=
  if 'A' ≤ c ∧ c ≤ 'Z' then Char.ofNat (c.toNat + 32) else c

/-- ASCII fragment of Python's `str.lower()`. -/
def lowerStr (s : String) : String := ⟨s.data.map lowerChar⟩

/-- ASCII fragment of Python's `\d` class (`Char.isDigit`). -/
def isDigitChar (c : Char) : Bool := c.isDigit

/-- ASCII fragment of Python's `\s` class. -/
def isSpaceChar (c : Char) : Bool :=
  c = ' ' ∨ c = '\t' ∨ c = '\n' ∨ c = '\x0d' ∨ c = '\x0b' ∨ c = '\x0c'

/-- ASCII fragment of Python's `\w` class: alphanumerics and underscore. -/
def isWordChar (c : Char) : Bool := c.isAlphanum ∨ c = '_'

/-- `needle` occurs contiguously inside `hay` (Python's `in` on strings). -/
def containsSub (needle hay : List Char) : Bool :=
  match hay with
  | [] => needle.isEmpty
  | _ :: tl => needle.isPrefixOf hay ∨ containsSub needle tl

/-- Value of a digit string, as computed by Python's `int()` on it. -/
def digitsToNat (ds : List Char) : Nat :=
  ds.foldl (fun a c => a * 10 + (c.toNat - '0'.toNat)) 0

/-!
## Episode identifier (`_extract_episode_number`, analyze_podcast.py:99-117)

`re.search(pat, title, re.IGNORECASE)` is modelled as trying the pattern at
every start position, leftmost first; both patterns are a case-insensitive
literal followed by `(\d+)`, whose greedy capture at a given start position is
the maximal digit run there.
-/

/-- Case-insensitive literal match: if `s` starts with `lit` (comparing
    lower-cased characters; `lit` is given lower-cased), return the rest. -/
def ciStripLit : List Char → List Char → Option (List Char)
  | [], s => some s
  | _, [] => none
  | lc :: lt, c :: ct => if lowerChar c = lc then ciStripLit lt ct else none

/-- Try a position matcher at every start position of `s`, leftmost first:
    the semantics of `re.search` for the patterns used in this program. -/
def reSearch {α : Type} (m : List Char → Option α) : List Char → Option α
  | [] => m []
  | l@(_ :: tl) =>
    match m l with
    | some r => some r
    | none => reSearch m tl

/-- Match `lit` (case-insensitively) followed by at least one digit at the
    start of `s`; the capture is the maximal digit run (greedy `(\d+)`). -/
def litDigitsAt (lit : List Char) (s : List Char) : Option (List Char) :=
  match ciStripLit lit s with
  | none => none
  | some rest =>
    let ds := rest.takeWhile isDigitChar
    if ds.isEmpty then none else some ds

/-- The pattern `r'Paid-only episode (\d+)'`, lower-cased literal part. -/
def paidLit : List Char := "paid-only episode ".data

/-- The pattern `r'Episode (\d+)'`, lower-cased literal part. -/
def episodeLit : List Char := "episode ".data

/-- Episode identifier: `int` for regular episodes, the `"P" + digits` tag for
    paid episodes (the constructor keeps the captured digit string, so that
    `"P" ++ ds` is exactly the Python string value), or `null` (Python `None`). -/
inductive EpNum where
  | num (n : Nat)
  | paid (ds : List Char)
  | null
deriving DecidableEq

/-- `PodcastAnalyzer._extract_episode_number` (analyze_podcast.py:99-117):
    search the paid pattern first, then the plain episode pattern. -/
def extract_episode_number (title : String) : EpNum :=
  match reSearch (litDigitsAt paidLit) title.data with
  | some ds => EpNum.paid ds
  | none =>
    match reSearch (litDigitsAt episodeLit) title.data with
    | some ds => EpNum.num (digitsToNat ds)
    | none => EpNum.null

/-- Declarative reading of "the title matches case-insensitive
    `Paid-only episode N`": the pattern matches at some start position. -/
def MatchesPaid (title : String) : Prop :=
  ∃ i : Fin (title.data.length + 1), (litDigitsAt paidLit (title.data.drop i.val)).isSome = true

/-- Declarative reading of "the title matches case-insensitive `Episode N`". -/
def MatchesEpisode (title : String) : Prop :=
  ∃ i : Fin (title.data.length + 1), (litDigitsAt episodeLit (title.data.drop i.val)).isSome = true

instance (t : String) : Decidable (MatchesPaid t) := by
  unfold MatchesPaid; infer_instance

instance (t : String) : Decidable (MatchesEpisode t) := by
  unfold MatchesEpisode; infer_instance

/-- Declarative description of what the pattern captures at one start
    position: the suffix decomposes as a prefix whose lower-casing is the
    pattern literal, then the captured digits themselves (taken verbatim from
    the title — digits are untouched by case folding), then a remainder whose
    first character is not a digit (so the capture is the maximal digit run,
    as the greedy `(\d+)` requires). -/
def LitCapture (lit s ds : List Char) : Prop :=
  ds ≠ [] ∧ (∀ c ∈ ds, isDigitChar c = true) ∧
    ∃ pre rest, s = pre ++ ds ++ rest ∧ pre.map lowerChar = lit ∧
      (∀ d ∈ rest.take 1, isDigitChar d = false)

/-!
## Title sanitization and cache file names (analyze_podcast.py:125-140)
-/

/-- Python `str.strip()` (whitespace from both ends). -/
def stripStr (l : List Char) : List Char :=
  ((l.dropWhile isSpaceChar).reverse.dropWhile isSpaceChar).reverse

/-- `re.sub(r'[-\s]+', '-', s)`: collapse every run of hyphens/whitespace to a
    single hyphen.  The boolean records whether we are inside such a run. -/
def collapseRuns : Bool → List Char → List Char
  | _, [] => []
  | inRun, c :: tl =>
    if isSpaceChar c ∨ c = '-' then
      if inRun then collapseRuns true tl
      else '-' :: collapseRuns true tl
    else c :: collapseRuns false tl

/-- The `safe_title` computation (analyze_podcast.py:126-127):
    `re.sub(r'[^\w\s-]', '', title).strip()`, then collapse `[-\s]+` runs to
    `-`, then truncate to 50 characters. -/
def safe_title (title : String) : String :=
  ⟨(collapseRuns false (stripStr (title.data.filter
      (fun c => isWordChar c ∨ isSpaceChar c ∨ c = '-')))).take 50⟩

/-- Python `f"{n:03d}"` for a natural number. -/
def zeroPad3 (n : Nat) : String :=
  let s := toString n
  ⟨List.replicate (3 - s.data.length) '0' ++ s.data⟩

/-- An episode record as parsed from the feed (analyze_podcast.py:79-85). -/
structure Episode where
  title : String
  episode_number : EpNum
  published : String
  audio_url : Option String
  link : String
deriving DecidableEq

/-- The audio cache filename computed inside `download_episode`
    (analyze_podcast.py:125-138), factored out as a function of the episode. -/
def audio_filename (e : Episode) : String :=
  match e.episode_number with
  | EpNum.num n => zeroPad3 n ++ "_" ++ safe_title e.title ++ ".mp3"
  | EpNum.paid ds => "P" ++ (⟨ds⟩ : String) ++ "_" ++ safe_title e.title ++ ".mp3"
  | EpNum.null => safe_title e.title ++ ".mp3"

/-- The legacy audio filename checked for paid episodes
    (analyze_podcast.py:149-150): `f"{int(tag[1:]):03d}_{safe_title}.mp3"`. -/
def legacy_audio_filename (ds : List Char) (title : String) : String :=
  zeroPad3 (digitsToNat ds) ++ "_" ++ safe_title title ++ ".mp3"

/-- Python falsiness of `episode['audio_url']` (either absent or empty). -/
def optStrFalsy : Option String → Bool
  | none => true
  | some s => s.isEmpty

/-- Outcome of `download_episode`: the returned path (a filename inside the
    downloads directory, `none` for Python `None`) and whether an HTTP request
    was issued (`requests.get` on the audio url). -/
structure DownloadResult where
  path : Option String
  httpRequested : Bool
deriving DecidableEq

/-- `PodcastAnalyzer.download_episode` (analyze_podcast.py:119-170).
    The filesystem is the list `fs` of filenames present in the downloads
    directory; `net` tells whether the streaming HTTP download would succeed
    (`false` models any raised exception, caught and turned into `None`). -/
def download_episode (e : Episode) (fs : List String) (net : Bool) : DownloadResult :=
  if optStrFalsy e.audio_url then ⟨none, false⟩
  else
    let filename := audio_filename e
    if filename ∈ fs then ⟨some filename, false⟩
    else
      match e.episode_number with
      | EpNum.paid ds =>
        let old_filename := legacy_audio_filename ds e.title
        if old_filename ∈ fs then ⟨some old_filename, false⟩
        else if net then ⟨some filename, true⟩ else ⟨none, true⟩
      | _ => if net then ⟨some filename, true⟩ else ⟨none, true⟩

/-!
## Transcript, timestamps (analyze_podcast.py:320-346)
-/

/-- One entry of `transcript['segments']`; only the `text` and `start` keys are
    read by the program (whisper emits further keys, unused here).  `start` is
    a JSON number, modelled exactly as a rational. -/
structure Segment where
  text : String
  start : ℚ
deriving DecidableEq

/-- A transcript as loaded from the whisper JSON: the full `text` and, when the
    `'segments'` key is present, the segment list (`none` models a missing key). -/
structure Transcript where
  text : String
  segments : Option (List Segment)
deriving DecidableEq

/-- Python `a // b` on numbers, for `b > 0`: the floor of the quotient. -/
def pyFloorDiv (a b : ℚ) : ℤ := ⌊a / b⌋

/-- Python `a % b` for `b > 0`: `a - b * (a // b)`, in `[0, b)`. -/
def pyMod (a b : ℚ) : ℚ := a - b * ((⌊a / b⌋ : ℤ) : ℚ)

/-- Python `f"{n:02d}"`: pad the decimal form with zeros to width 2. -/
def pad2 (n : ℤ) : String :=
  let s := toString n
  if s.data.length < 2 then ⟨'0' :: s.data⟩ else s

/-- `PodcastAnalyzer._format_timestamp` (analyze_podcast.py:337-346).
    `int(seconds // 3600)`, `int((seconds % 3600) // 60)` and `int(seconds % 60)`
    all floor their (non-negative) arguments. -/
def format_timestamp (seconds : ℚ) : String :=
  let hours : ℤ := pyFloorDiv seconds 3600
  let minutes : ℤ := pyFloorDiv (pyMod seconds 3600) 60
  let secs : ℤ := ⌊pyMod seconds 60⌋
  if hours > 0 then toString hours ++ ":" ++ pad2 minutes ++ ":" ++ pad2 secs
  else toString minutes ++ ":" ++ pad2 secs

/-- The per-segment match test of `_find_timestamp` (analyze_podcast.py:326-330):
    `quote_lower = quote.lower()[:50]`, `segment_text = segment['text'].lower()`,
    match iff `quote_lower in segment_text or segment_text in quote_lower`. -/
def segMatches (quote : String) (seg : Segment) : Bool :=
  let quote_lower := (lowerStr quote).data.take 50
  let segment_text := (lowerStr seg.text).data
  containsSub quote_lower segment_text ∨ containsSub segment_text quote_lower

/-- The loop of `_find_timestamp`: first matching segment's formatted start
    time, else `"Unknown"`. -/
def scanSegments (quote : String) : List Segment → String
  | [] => "Unknown"
  | seg :: rest =>
    if segMatches quote seg then format_timestamp seg.start
    else scanSegments quote rest

/-- `PodcastAnalyzer._find_timestamp` (analyze_podcast.py:320-335). -/
def find_timestamp (transcript : Transcript) (quote : String) : String :=
  if quote.data.isEmpty ∨ transcript.segments.isNone then "Unknown"
  else
    match transcript.segments with
    | none => "Unknown"
    | some segs => scanSegments quote segs

/-!
## Findings and report generation
(analyze_podcast.py:375-423, generate_report_only.py:9-64)
-/

/-- One finding, as stored in `progress['results']`
    (analyze_podcast.py:304-311). -/
structure Finding where
  episode_number : EpNum
  episode_title : String
  timestamp : String
  topic : String
  quote : String
  context : String
deriving DecidableEq

/-- The `sort_key` closure (analyze_podcast.py:380-388): `(2, 0)` for `None`,
    `(1, int(tag[1:]))` for paid tags, `(0, n)` for regular numbers. -/
def sort_key (f : Finding) : Nat × Nat :=
  match f.episode_number with
  | EpNum.null => (2, 0)
  | EpNum.paid ds => (1, digitsToNat ds)
  | EpNum.num n => (0, n)

/-- Lexicographic `≤` on pairs: Python's tuple comparison. -/
def tupleLe (a b : Nat × Nat) : Prop :=
  a.1 < b.1 ∨ (a.1 = b.1 ∧ a.2 ≤ b.2)

instance (a b : Nat × Nat) : Decidable (tupleLe a b) := by
  unfold tupleLe; infer_instance

/-- The ordering realised by `findings.sort(key=sort_key, reverse=True)`:
    `f` may precede `g` iff `sort_key g ≤ sort_key f` lexicographically. -/
def findings_rel (f g : Finding) : Prop := tupleLe (sort_key g) (sort_key f)

instance (f g : Finding) : Decidable (findings_rel f g) := by
  unfold findings_rel; infer_instance

/-- Python's `list.sort(key=sort_key, reverse=True)` is a stable sort placing
    larger keys first; any stable sort for a total preorder computes the same
    function, so it is modelled by insertion sort on `findings_rel`. -/
def sortFindings (findings : List Finding) : List Finding :=
  findings.insertionSort findings_rel

/-- Python `str(x)` / f-string interpolation of an `episode_number` value. -/
def epNumStr : EpNum → String
  | EpNum.num n => toString n
  | EpNum.paid ds => "P" ++ (⟨ds⟩ : String)
  | EpNum.null => "None"

/-- CSV escaping (analyze_podcast.py:398-400): `'"' -> '""'`. -/
def csvEscape (s : String) : String :=
  ⟨s.data.flatMap (fun c => if c = '"' then ['"', '"'] else [c])⟩

/-- One CSV row (analyze_podcast.py:402). -/
def csvRow (f : Finding) : String :=
  epNumStr f.episode_number ++ ",\"" ++ csvEscape f.episode_title ++ "\"," ++
    f.timestamp ++ ",\"" ++ csvEscape f.topic ++ "\",\"" ++ csvEscape f.context ++ "\"\n"

/-- The CSV artifact: header plus one row per finding, in list order. -/
def render_csv (findings : List Finding) : String :=
  "Episode Number,Episode Title,Timestamp,Topic Summary,Context\n" ++
    String.join (findings.map csvRow)

/-- Markdown escaping for title and topic (analyze_podcast.py:416-417):
    `'|' -> '\|'`. -/
def mdEscape (s : String) : String :=
  ⟨s.data.flatMap (fun c => if c = '|' then ['\\', '|'] else [c])⟩

/-- Markdown escaping for context (analyze_podcast.py:418): pipes escaped,
    then newlines collapsed to spaces. -/
def mdEscapeContext (s : String) : String :=
  ⟨(s.data.flatMap (fun c => if c = '|' then ['\\', '|'] else [c])).map
    (fun c => if c = '\n' then ' ' else c)⟩

/-- One Markdown table row (analyze_podcast.py:420). -/
def mdRow (f : Finding) : String :=
  "| " ++ epNumStr f.episode_number ++ " | " ++ mdEscape f.episode_title ++ " | " ++
    f.timestamp ++ " | " ++ mdEscape f.topic ++ " | " ++ mdEscapeContext f.context ++ " |\n"

/-- The Markdown artifact (analyze_podcast.py:409-420). -/
def render_md (findings : List Finding) : String :=
  "# Science Fictions: Future Episode Suggestions\n\n" ++
    "Total instances found: " ++ toString findings.length ++ "\n\n" ++
    "| Episode # | Episode Title | Timestamp | Topic Summary | Context |\n" ++
    "|-----------|---------------|-----------|---------------|----------|\n" ++
    String.join (findings.map mdRow)

/-- Result of `generate_report`: the findings list after the in-place
    `findings.sort(...)`, and the bytes written to the two report files. -/
structure Report where
  sorted : List Finding
  csv : String
  md : String
deriving DecidableEq

/-- `generate_report` (analyze_podcast.py:375-423 and its copy in
    generate_report_only.py:9-64): sort in place, then render CSV and
    Markdown from the sorted list. -/
def generate_report (findings : List Finding) : Report :=
  let sorted := sortFindings findings
  ⟨sorted, render_csv sorted, render_md sorted⟩

/-!
## Progress store and pipeline driver
(analyze_podcast.py:46-61 and 348-373)
-/

/-- The progress record (analyze_podcast.py:51-56).  The three stage lists are
    loaded and saved but never consulted or updated by the driver. -/
structure Progress where
  episodes_parsed : List String
  episodes_transcribed : List String
  episodes_analyzed : List String
  results : List Finding
deriving DecidableEq

/-- `PodcastAnalyzer._load_progress` (analyze_podcast.py:46-56): the parsed
    contents of the progress file when it exists, else the empty record. -/
def load_progress (file : Option Progress) : Progress :=
  match file with
  | some p => p
  | none => ⟨[], [], [], []⟩

/-- Per-episode outcome of the three effectful stages inside the driver loop,
    supplied as an oracle: `download_episode` returning `None`,
    `transcribe_episode` returning `None`, or `analyze_with_claude` returning
    a findings list (possibly empty). -/
inductive EpOutcome where
  | noAudio
  | noTranscript
  | analyzed (findings : List Finding)
deriving DecidableEq

/-- Result of the driver loop: the final in-memory progress record, the
    successive values of `progress['results']` written by `_save_progress`
    (one per episode that completed its pipeline), and the returned
    `all_findings`. -/
structure RunResult where
  final : Progress
  saves : List (List Finding)
  all_findings : List Finding
deriving DecidableEq

/-- The loop body of `process_episodes` (analyze_podcast.py:348-373), with the
    running `all_findings` accumulator made explicit. -/
def process_episodes_go (p : Progress) (all_findings : List Finding) :
    List EpOutcome → RunResult
  | [] => ⟨p, [], all_findings⟩
  | o :: rest =>
    match o with
    | EpOutcome.noAudio => process_episodes_go p all_findings rest
    | EpOutcome.noTranscript => process_episodes_go p all_findings rest
    | EpOutcome.analyzed findings =>
      let all' := all_findings ++ findings
      let p' := { p with results := all' }
      let r := process_episodes_go p' all' rest
      ⟨r.final, all' :: r.saves, r.all_findings⟩

/-- `PodcastAnalyzer.process_episodes`: `all_findings` starts empty
    (analyze_podcast.py:350) regardless of the loaded progress record. -/
def process_episodes (p : Progress) (outcomes : List EpOutcome) : RunResult :=
  process_episodes_go p [] outcomes

/-- The findings lists of the episodes that completed the pipeline, in order. -/
def completedFindings : List EpOutcome → List (List Finding)
  | [] => []
  | EpOutcome.analyzed fs :: rest => fs :: completedFindings rest
  | _ :: rest => completedFindings rest

/-- Cumulative concatenations of a list of lists on top of `acc`. -/
def cumConcat (acc : List Finding) : List (List Finding) → List (List Finding)
  | [] => []
  | x :: rest => (acc ++ x) :: cumConcat (acc ++ x) rest

/-!
## Model-response JSON extraction and parsing (analyze_podcast.py:280-318)

`re.search(r'```json\s*(\[.*?\])\s*```', text, re.DOTALL)` and
`re.search(r'(\[.*\])', text, re.DOTALL)` are modelled operationally:
positions tried leftmost first; at a position, `\s*` before a non-whitespace
literal deterministically skips the maximal whitespace run; the lazy
`(\[.*?\])` captures up to the first `]` that is followed by `\s*` and three
backticks; the greedy `(\[.*\])` captures from a `[` to the last `]` of the
whole remaining text.  `json.loads` is modelled by a small JSON parser; a
`none` result models the raised `JSONDecodeError`, caught by the surrounding
`except` (analyze_podcast.py:316-318).
-/

/-- Case-sensitive literal match, returning the rest of the input. -/
def stripLit : List Char → List Char → Option (List Char)
  | [], s => some s
  | _, [] => none
  | lc :: lt, c :: ct => if c = lc then stripLit lt ct else none

/-- Scan for the first `]` that is followed by `\s*` and a triple backtick;
    return everything up to and including that `]` (the lazy `.*?\]`). -/
def fencedClose : List Char → List Char → Option (List Char)
  | [], _ => none
  | c :: tl, acc =>
    if c = ']' ∧ "```".data.isPrefixOf (tl.dropWhile isSpaceChar) then
      some (acc.reverse ++ [']'])
    else fencedClose tl (c :: acc)

/-- The fenced pattern tried at one start position. -/
def fencedAt (s : List Char) : Option (List Char) :=
  match stripLit "```json".data s with
  | none => none
  | some r =>
    match r.dropWhile isSpaceChar with
    | '[' :: r2 =>
      match fencedClose r2 [] with
      | some content => some ('[' :: content)
      | none => none
    | _ => none

/-- The prefix of `r` up to and including its last `]`, if any. -/
def lastBracketPrefix (r : List Char) : Option (List Char) :=
  let rr := r.reverse.dropWhile (fun c => ¬(c = ']'))
  if rr.isEmpty then none else some rr.reverse

/-- The bare-array pattern `(\[.*\])` tried at one start position: a `[` here
    and a `]` somewhere after it; the greedy capture runs to the last `]`. -/
def bareAt (s : List Char) : Option (List Char) :=
  match s with
  | '[' :: r =>
    match lastBracketPrefix r with
    | some content => some ('[' :: content)
    | none => none
  | _ => none

/-- The JSON-payload extraction (analyze_podcast.py:284-294): fenced block
    first, then bare array, then the literal `"[]"`. -/
def extract_json (response : List Char) : List Char :=
  match reSearch fencedAt response with
  | some cap => cap
  | none =>
    match reSearch bareAt response with
    | some cap => cap
    | none => "[]".data

/-- JSON values, as produced by `json.loads`.  Numbers are exact rationals;
    object members are kept in textual order. -/
inductive Json where
  | null
  | bool (b : Bool)
  | num (q : ℚ)
  | str (s : List Char)
  | arr (elems : List Json)
  | obj (members : List (List Char × Json))

/-- JSON inter-token whitespace (space, tab, line feed, carriage return). -/
def jsonSkipWs (l : List Char) : List Char :=
  l.dropWhile (fun c => c = ' ' ∨ c = '\t' ∨ c = '\n' ∨ c = '\x0d')

/-- Hexadecimal digit value, for `\uXXXX` escapes. -/
def hexVal (c : Char) : Option Nat :=
  if c.isDigit then some (c.toNat - '0'.toNat)
  else if 'a' ≤ c ∧ c ≤ 'f' then some (c.toNat - 'a'.toNat + 10)
  else if 'A' ≤ c ∧ c ≤ 'F' then some (c.toNat - 'A'.toNat + 10)
  else none

/-- Single-character JSON string escapes. -/
def escChar : Char → Option Char
  | '"' => some '"'
  | '\\' => some '\\'
  | '/' => some '/'
  | 'b' => some '\x08'
  | 'f' => some '\x0c'
  | 'n' => some '\n'
  | 'r' => some '\x0d'
  | 't' => some '\t'
  | _ => none

/-- Body of a JSON string after the opening quote: the decoded characters and
    the input after the closing quote.  Raw control characters are rejected
    (`json.loads` default strict mode); surrogate-pair combination of `\u`
    escapes is not modelled (no claim exercises it). -/
def parseStringBody : List Char → Option (List Char × List Char)
  | [] => none
  | '"' :: r => some ([], r)
  | '\\' :: r =>
    match r with
    | [] => none
    | 'u' :: r2 =>
      match r2 with
      | a :: b :: c :: d :: r3 =>
        match hexVal a, hexVal b, hexVal c, hexVal d with
        | some ha, some hb, some hc, some hd =>
          (parseStringBody r3).map
            (fun p => (Char.ofNat (((ha * 16 + hb) * 16 + hc) * 16 + hd) :: p.1, p.2))
        | _, _, _, _ => none
      | _ => none
    | e :: r2 =>
      match escChar e with
      | some c => (parseStringBody r2).map (fun p => (c :: p.1, p.2))
      | none => none
  | c :: r =>
    if c.toNat < 32 then none
    else (parseStringBody r).map (fun p => (c :: p.1, p.2))

/-- A JSON number: optional minus, integer part without leading zeros,
    optional fraction, optional exponent. -/
def parseNumber (s : List Char) : Option (Json × List Char) :=
  let (neg, s1) := match s with
    | '-' :: r => (true, r)
    | _ => (false, s)
  let ds := s1.takeWhile isDigitChar
  if ds.isEmpty then none
  else if ds.length > 1 ∧ ds.headD '0' = '0' then none
  else
    let s2 := s1.drop ds.length
    let fracRes : Option (List Char × List Char) :=
      match s2 with
      | '.' :: r =>
        let f := r.takeWhile isDigitChar
        if f.isEmpty then none else some (f, r.drop f.length)
      | _ => some ([], s2)
    match fracRes with
    | none => none
    | some (fds, s3) =>
      let expRes : Option (Bool × List Char × List Char) :=
        match s3 with
        | 'e' :: r | 'E' :: r =>
          let (en, r2) := match r with
            | '-' :: rr => (true, rr)
            | '+' :: rr => (false, rr)
            | _ => (false, r)
          let e := r2.takeWhile isDigitChar
          if e.isEmpty then none else some (en, e, r2.drop e.length)
        | _ => some (false, [], s3)
      match expRes with
      | none => none
      | some (expNeg, eds, s4) =>
        let mantissa : ℚ :=
          ((digitsToNat ds * 10 ^ fds.length + digitsToNat fds : ℕ) : ℚ) / (10 ^ fds.length : ℕ)
        let signed : ℚ := if neg then -mantissa else mantissa
        let expo := digitsToNat eds
        let value : ℚ := if expNeg then signed / (10 ^ expo : ℕ) else signed * (10 ^ expo : ℕ)
        some (Json.num value, s4)

/-- Parsing mode of the defunctionalized JSON parser: a single value, the
    remaining elements of an array, or the remaining members of an object. -/
inductive PMode where
  | val
  | elems (acc : List Json)
  | members (acc : List (List Char × Json))

/-- Fueled recursive-descent JSON parser (the model of `json.loads`); the
    fuel only guards termination and is chosen large enough in
    `parseJsonDoc`. -/
def parseP : Nat → PMode → List Char → Option (Json × List Char)
  | 0, _, _ => none
  | Nat.succ fuel, PMode.val, s0 =>
    match jsonSkipWs s0 with
    | 'n' :: 'u' :: 'l' :: 'l' :: r => some (Json.null, r)
    | 't' :: 'r' :: 'u' :: 'e' :: r => some (Json.bool true, r)
    | 'f' :: 'a' :: 'l' :: 's' :: 'e' :: r => some (Json.bool false, r)
    | '"' :: r =>
      match parseStringBody r with
      | some (cs, r2) => some (Json.str cs, r2)
      | none => none
    | '[' :: r =>
      match jsonSkipWs r with
      | ']' :: r2 => some (Json.arr [], r2)
      | r2 => parseP fuel (PMode.elems []) r2
    | '{' :: r =>
      match jsonSkipWs r with
      | '}' :: r2 => some (Json.obj [], r2)
      | r2 => parseP fuel (PMode.members []) r2
    | s => parseNumber s
  | Nat.succ fuel, PMode.elems acc, s =>
    match parseP fuel PMode.val s with
    | none => none
    | some (v, r) =>
      match jsonSkipWs r with
      | ',' :: r2 => parseP fuel (PMode.elems (acc ++ [v])) r2
      | ']' :: r2 => some (Json.arr (acc ++ [v]), r2)
      | _ => none
  | Nat.succ fuel, PMode.members acc, s =>
    match jsonSkipWs s with
    | '"' :: r =>
      match parseStringBody r with
      | none => none
      | some (key, r2) =>
        match jsonSkipWs r2 with
        | ':' :: r3 =>
          match parseP fuel PMode.val r3 with
          | none => none
          | some (v, r4) =>
            match jsonSkipWs r4 with
            | ',' :: r5 => parseP fuel (PMode.members (acc ++ [(key, v)])) r5
            | '}' :: r5 => some (Json.obj (acc ++ [(key, v)]), r5)
            | _ => none
        | _ => none
    | _ => none

/-- `json.loads` on a whole document: parse one value, allow only trailing
    whitespace.  `none` models a raised `JSONDecodeError`. -/
def parseJsonDoc (l : List Char) : Option Json :=
  match parseP (4 * l.length + 16) PMode.val l with
  | some (v, rest) => if (jsonSkipWs rest).isEmpty then some v else none
  | none => none

/-- One parsed finding before enhancement: the `topic`/`quote`/`context`
    fields with their defaults (analyze_podcast.py:302-310). -/
structure RawFinding where
  topic : String
  quote : String
  context : String
deriving DecidableEq

/-- Python dict lookup on a parsed JSON object (`json.loads` keeps the last
    of duplicate keys). -/
def objGetLast (key : List Char) : List (List Char × Json) → Option Json
  | [] => none
  | (k, v) :: rest =>
    match objGetLast key rest with
    | some r => some r
    | none => if k = key then some v else none

/-- `finding.get(key, default)` restricted to string values: absent keys give
    the default; a non-string value is not modelled (the pipeline's prompt
    and every claim use string fields only) and makes the episode's analysis
    fall into the `except` branch. -/
def getStrField (members : List (List Char × Json)) (key : List Char)
    (dflt : String) : Option String :=
  match objGetLast key members with
  | none => some dflt
  | some (Json.str s) => some ⟨s⟩
  | some _ => none

/-- One element of the parsed findings array (analyze_podcast.py:300-310):
    must be an object; iterating anything whose elements are not dicts makes
    `finding.get` raise, caught by the `except` branch. -/
def rawOfJson : Json → Option RawFinding
  | Json.obj ms =>
    match getStrField ms "topic".data "Unknown", getStrField ms "quote".data "",
        getStrField ms "context".data "" with
    | some t, some q, some c => some ⟨t, q, c⟩
    | _, _, _ => none
  | _ => none

/-- The whole findings payload: a JSON array of finding objects. -/
def rawsOfJson : Json → Option (List RawFinding)
  | Json.arr items => items.mapM rawOfJson
  | _ => none

/-- Enhancement of one finding with episode metadata and its located
    timestamp (analyze_podcast.py:302-311). -/
def mkFinding (episode : Episode) (transcript : Transcript) (r : RawFinding) : Finding :=
  ⟨episode.episode_number, episode.title, find_timestamp transcript r.quote,
    r.topic, r.quote, r.context⟩

/-- `PodcastAnalyzer.analyze_with_claude` (analyze_podcast.py:232-318).  The
    prompt construction and API call are modelled by the `response_text`
    oracle (the model's raw reply); every exception inside the `try` block is
    caught and yields the empty findings list. -/
def analyze_with_claude (episode : Episode) (transcript : Transcript)
    (response_text : String) : List Finding :=
  let findings_json := extract_json response_text.data
  match parseJsonDoc findings_json with
  | none => []
  | some j =>
    match rawsOfJson j with
    | none => []
    | some raws => raws.map (mkFinding episode transcript)

/-!
## Relation facts for the sort, and concrete inputs used by witnesses and
counterexamples
-/

instance : IsTotal Finding findings_rel :=
  ⟨by intro a b; unfold findings_rel tupleLe; omega⟩

instance : IsTrans Finding findings_rel :=
  ⟨by intro a b c; unfold findings_rel tupleLe; omega⟩

/-- A finding carrying only an episode number, for the sort-order evaluation. -/
def c1Finding (n : EpNum) : Finding := ⟨n, "T", "0:00", "topic", "q", "ctx"⟩

/-- A finding persisted by a previous, interrupted run. -/
def fOld : Finding := ⟨EpNum.num 1, "Episode 1", "0:01", "old topic", "q1", "c1"⟩

/-- A finding produced by the current run. -/
def fNew : Finding := ⟨EpNum.num 2, "Episode 2", "0:02", "new topic", "q2", "c2"⟩

/-- A progress record left behind by a previous, interrupted run. -/
def pPrev : Progress := ⟨["1"], ["1"], ["1"], [fOld]⟩

/-- A regular episode with an audio url. -/
def epWithUrl : Episode :=
  ⟨"Episode 5", EpNum.num 5, "2024-01-01", some "http://example.com/5.mp3", "link"⟩

/-- The same episode, but with no audio url in the feed entry. -/
def epNoUrl : Episode := ⟨"Episode 5", EpNum.num 5, "2024-01-01", none, "link"⟩

/-- A downloads directory already containing the cached audio of episode 5. -/
def fsEp5 : List String := ["005_Episode-5.mp3"]

/-- A paid episode with an audio url. -/
def epPaidWithUrl : Episode :=
  ⟨"Paid-only episode 3", EpNum.paid ['3'], "2024-01-01",
    some "http://example.com/3.mp3", "link"⟩

/-- The same paid episode with no audio url. -/
def epPaidNoUrl : Episode :=
  ⟨"Paid-only episode 3", EpNum.paid ['3'], "2024-01-01", none, "link"⟩

/-- A downloads directory holding only the legacy-named file of the paid
    episode (old zero-padded scheme), not the new `P`-tagged one. -/
def fsLegacy : List String := ["003_Paid-only-episode-3.mp3"]

/-- An episode and empty transcript used to exercise the topic extractor. -/
def epC6 : Episode :=
  ⟨"Episode 9", EpNum.num 9, "2024-01-01", some "http://example.com/9.mp3", "link"⟩

/-- A transcript whose JSON had no `segments` key. -/
def tC6 : Transcript := ⟨"hello", none⟩

/-- A model response with a properly fenced JSON findings array. -/
def rC6 : String :=
  "```json\n[\x7b\"topic\": \"Bees\", \"quote\": \"we should cover bees\", \"context\": \"c\"\x7d]\n```"

/-- A model response with two bare arrays: the greedy capture spans from the
    first `[` to the last `]` and is not valid JSON. -/
def rC6bad : String := "x [\x7b\"topic\": \"T\"\x7d] y [2]"

/-!
## Lemmas about the regex-search embedding
-/

lemma reSearch_none_iff {α : Type} (m : List Char → Option α) (s : List Char) :
    reSearch m s = none ↔ ∀ i : Nat, m (s.drop i) = none := by
  induction s with
  | nil =>
    simp only [reSearch, List.drop_nil]
    exact ⟨fun h _ => h, fun h => h 0⟩
  | cons c tl ih =>
    cases h : m (c :: tl) with
    | some r =>
      simp only [reSearch, h]
      constructor
      · intro hx; exact absurd hx (by simp)
      · intro hall
        have h0 := hall 0
        rw [List.drop_zero, h] at h0
        exact absurd h0 (by simp)
    | none =>
      simp only [reSearch, h]
      rw [ih]
      constructor
      · intro hta i
        cases i with
        | zero => rw [List.drop_zero]; exact h
        | succ j => rw [List.drop_succ_cons]; exact hta j
      · intro hall j
        have := hall (j + 1)
        rwa [List.drop_succ_cons] at this

lemma reSearch_isSome_iff {α : Type} (m : List Char → Option α) (s : List Char) :
    (reSearch m s).isSome = true ↔
      ∃ i : Fin (s.length + 1), (m (s.drop i.val)).isSome = true := by
  constructor
  · intro hsome
    have hex : ¬ ∀ i : Nat, m (s.drop i) = none := fun hall =>
      (Option.ne_none_iff_isSome.mpr hsome) ((reSearch_none_iff m s).mpr hall)
    rcases not_forall.mp hex with ⟨i, hi⟩
    by_cases hle : i ≤ s.length
    · exact ⟨⟨i, Nat.lt_succ_of_le hle⟩, Option.ne_none_iff_isSome.mp hi⟩
    · have hdrop : s.drop i = [] := List.drop_eq_nil_of_le (by omega)
      refine ⟨⟨s.length, Nat.lt_succ_self _⟩, ?_⟩
      rw [List.drop_length]
      rw [hdrop] at hi
      exact Option.ne_none_iff_isSome.mp hi
  · rintro ⟨i, hi⟩
    rw [← Option.ne_none_iff_isSome]
    intro heq
    have := (reSearch_none_iff m s).mp heq i.val
    rw [this] at hi
    exact absurd hi (by simp)

lemma ciStripLit_append (a b s : List Char) :
    ciStripLit (a ++ b) s = (ciStripLit a s).bind (ciStripLit b) := by
  induction a generalizing s with
  | nil => simp [ciStripLit]
  | cons x xs ih =>
    cases s with
    | nil => simp [ciStripLit]
    | cons c cs =>
      simp only [List.cons_append, ciStripLit]
      by_cases h : lowerChar c = x
      · simp only [if_pos h]; exact ih cs
      · simp [if_neg h]

lemma ciStripLit_some_drop {lit s r : List Char} (h : ciStripLit lit s = some r) :
    r = s.drop lit.length ∧ lit.length ≤ s.length := by
  induction lit generalizing s with
  | nil =>
    simp only [ciStripLit, Option.some_inj] at h
    simp [h.symm]
  | cons x xs ih =>
    cases s with
    | nil => exact absurd h (by simp [ciStripLit])
    | cons c cs =>
      simp only [ciStripLit] at h
      by_cases hc : lowerChar c = x
      · rw [if_pos hc] at h
        obtain ⟨h1, h2⟩ := ih h
        refine ⟨by simpa using h1, ?_⟩
        simpa using Nat.succ_le_succ h2
      · rw [if_neg hc] at h
        exact absurd h (by simp)

lemma take_one_dropWhile (p : Char → Bool) (l : List Char) :
    ∀ d ∈ (l.dropWhile p).take 1, p d = false := by
  induction l with
  | nil => intro d hd; simp [List.dropWhile] at hd
  | cons c tl ih =>
    intro d hd
    rw [List.dropWhile_cons] at hd
    by_cases hc : p c = true
    · rw [if_pos hc] at hd
      exact ih d hd
    · rw [if_neg hc] at hd
      simp only [List.take_succ_cons, List.take_zero, List.mem_singleton] at hd
      subst hd
      exact Bool.eq_false_iff.mpr hc

lemma takeWhile_all_append {p : Char → Bool} {l₁ l₂ : List Char}
    (h1 : ∀ c ∈ l₁, p c = true) (h2 : ∀ d ∈ l₂.take 1, p d = false) :
    (l₁ ++ l₂).takeWhile p = l₁ := by
  induction l₁ with
  | nil =>
    simp only [List.nil_append]
    cases l₂ with
    | nil => rfl
    | cons d tl =>
      have hd := h2 d (by simp)
      simp [List.takeWhile_cons, hd]
  | cons c ct ih =>
    have hc := h1 c (by simp)
    simp [List.takeWhile_cons, hc,
      ih (fun x hx => h1 x (List.mem_cons_of_mem c hx))]

lemma ciStripLit_eq_some_iff {lit s r : List Char} :
    ciStripLit lit s = some r ↔
      lit.length ≤ s.length ∧ (s.take lit.length).map lowerChar = lit
        ∧ r = s.drop lit.length := by
  induction lit generalizing s with
  | nil => simp [ciStripLit, eq_comm]
  | cons lc lt ih =>
    cases s with
    | nil => simp [ciStripLit]
    | cons c ct =>
      simp only [ciStripLit]
      by_cases h : lowerChar c = lc
      · rw [if_pos h, ih]
        simp only [List.length_cons, List.take_succ_cons, List.map_cons,
          List.drop_succ_cons]
        constructor
        · rintro ⟨h1, h2, h3⟩
          exact ⟨by omega, by rw [h, h2], h3⟩
        · rintro ⟨h1, h2, h3⟩
          injection h2 with _ htl
          exact ⟨by omega, htl, h3⟩
      · rw [if_neg h]
        simp only [List.length_cons, List.take_succ_cons, List.map_cons]
        constructor
        · intro hx; exact absurd hx (by simp)
        · rintro ⟨_, h2, _⟩
          injection h2 with hh _
          exact absurd hh h

lemma litDigitsAt_eq_some_iff {lit s ds : List Char} :
    litDigitsAt lit s = some ds ↔ LitCapture lit s ds := by
  unfold litDigitsAt LitCapture
  constructor
  · intro h
    cases hstrip : ciStripLit lit s with
    | none => rw [hstrip] at h; exact absurd h (by simp)
    | some rest0 =>
      rw [hstrip] at h
      have h2 : (if (rest0.takeWhile isDigitChar).isEmpty then none
          else some (rest0.takeWhile isDigitChar)) = some ds := h
      by_cases hds : (rest0.takeWhile isDigitChar).isEmpty
      · rw [if_pos hds] at h2; exact absurd h2 (by simp)
      · rw [if_neg hds] at h2
        have hds_eq : rest0.takeWhile isDigitChar = ds := Option.some_inj.mp h2
        obtain ⟨hlen, hmap, hrest⟩ := ciStripLit_eq_some_iff.mp hstrip
        refine ⟨?_, ?_, s.take lit.length, rest0.dropWhile isDigitChar, ?_, hmap, ?_⟩
        · intro hnil
          apply hds
          rw [List.isEmpty_iff, hds_eq]
          exact hnil
        · intro c hc
          rw [← hds_eq] at hc
          exact List.mem_takeWhile_imp hc
        · rw [List.append_assoc, ← hds_eq,
            List.takeWhile_append_dropWhile isDigitChar rest0,
            hrest, List.take_append_drop]
        · exact take_one_dropWhile isDigitChar rest0
  · rintro ⟨hne, hdig, pre, rest, hs, hpre, hrest1⟩
    have hplen : pre.length = lit.length := by rw [← hpre, List.length_map]
    have htake : s.take lit.length = pre := by
      rw [hs, List.append_assoc, ← hplen, List.take_left]
    have hdrop : s.drop lit.length = ds ++ rest := by
      rw [hs, List.append_assoc, ← hplen, List.drop_left]
    have hstrip : ciStripLit lit s = some (ds ++ rest) := by
      rw [ciStripLit_eq_some_iff]
      refine ⟨?_, by rw [htake, hpre], hdrop.symm⟩
      rw [hs]
      simp only [List.length_append]
      omega
    rw [hstrip]
    show (if ((ds ++ rest).takeWhile isDigitChar).isEmpty then none
        else some ((ds ++ rest).takeWhile isDigitChar)) = some ds
    rw [takeWhile_all_append hdig hrest1,
      if_neg (by rw [List.isEmpty_iff]; exact hne)]

lemma reSearch_eq_some_iff {α : Type} (m : List Char → Option α) (s : List Char)
    (r : α) :
    reSearch m s = some r ↔
      ∃ i : Nat, m (s.drop i) = some r ∧ ∀ j, j < i → m (s.drop j) = none := by
  induction s with
  | nil =>
    simp only [reSearch, List.drop_nil]
    constructor
    · intro h; exact ⟨0, h, by omega⟩
    · rintro ⟨i, hi, _⟩; exact hi
  | cons c tl ih =>
    cases h : m (c :: tl) with
    | some r0 =>
      simp only [reSearch, h]
      constructor
      · intro hr
        refine ⟨0, ?_, by omega⟩
        rw [List.drop_zero, h]
        exact hr
      · rintro ⟨i, hi, hj⟩
        cases i with
        | zero => rw [List.drop_zero, h] at hi; exact hi
        | succ k =>
          have h0 := hj 0 (by omega)
          rw [List.drop_zero, h] at h0
          exact absurd h0 (by simp)
    | none =>
      simp only [reSearch, h]
      rw [ih]
      constructor
      · rintro ⟨i, hi, hj⟩
        refine ⟨i + 1, by rwa [List.drop_succ_cons], ?_⟩
        intro j hjlt
        cases j with
        | zero => rw [List.drop_zero]; exact h
        | succ k => rw [List.drop_succ_cons]; exact hj k (by omega)
      · rintro ⟨i, hi, hj⟩
        cases i with
        | zero => rw [List.drop_zero, h] at hi; exact absurd hi (by simp)
        | succ k =>
          refine ⟨k, by rwa [List.drop_succ_cons] at hi, ?_⟩
          intro j hjlt
          have := hj (j + 1) (by omega)
          rwa [List.drop_succ_cons] at this

/-- A successful paid-pattern match at a position yields a successful plain
    episode-pattern match 10 characters further on (`"paid-only "` is 10
    characters long and `paidLit = "paid-only " ++ episodeLit`), with the same
    captured digits. -/
lemma paid_match_implies_episode_match {s ds : List Char}
    (h : litDigitsAt paidLit s = some ds) :
    litDigitsAt episodeLit (s.drop 10) = some ds ∧ 18 ≤ s.length := by
  unfold litDigitsAt at h ⊢
  cases hstrip : ciStripLit paidLit s with
  | none => rw [hstrip] at h; exact absurd h (by simp)
  | some rest =>
    rw [hstrip] at h
    have happ : ciStripLit ("paid-only ".data ++ episodeLit) s = some rest := by
      rw [show "paid-only ".data ++ episodeLit = paidLit from rfl]
      exact hstrip
    rw [ciStripLit_append] at happ
    cases hmid : ciStripLit "paid-only ".data s with
    | none => rw [hmid] at happ; exact absurd happ (by simp)
    | some mid =>
      rw [hmid, Option.some_bind] at happ
      obtain ⟨hmids, _⟩ := ciStripLit_some_drop hmid
      rw [show ("paid-only ".data : List Char).length = 10 from rfl] at hmids
      obtain ⟨_, hplen⟩ := ciStripLit_some_drop hstrip
      rw [show (paidLit : List Char).length = 18 from rfl] at hplen
      rw [← hmids, happ]
      exact ⟨h, hplen⟩

lemma matchesPaid_iff_search (t : String) :
    MatchesPaid t ↔ (reSearch (litDigitsAt paidLit) t.data).isSome = true := by
  unfold MatchesPaid
  exact (reSearch_isSome_iff _ _).symm

lemma matchesEpisode_iff_search (t : String) :
    MatchesEpisode t ↔ (reSearch (litDigitsAt episodeLit) t.data).isSome = true := by
  unfold MatchesEpisode
  exact (reSearch_isSome_iff _ _).symm

lemma matchesPaid_imp_matchesEpisode {t : String} (h : MatchesPaid t) :
    MatchesEpisode t := by
  obtain ⟨i, hi⟩ := h
  cases hm : litDigitsAt paidLit (t.data.drop i.val) with
  | none => rw [hm] at hi; exact absurd hi (by simp)
  | some ds =>
    obtain ⟨hep, hlen⟩ := paid_match_implies_episode_match hm
    rw [List.drop_drop] at hep
    have hld := List.length_drop i.val t.data
    refine ⟨⟨i.val + 10, by omega⟩, ?_⟩
    show (litDigitsAt episodeLit (t.data.drop (i.val + 10))).isSome = true
    rw [hep]
    rfl

/-- C5: episode-identifier extraction returns the tag `"P" + N` whenever the
    title matches the case-insensitive pattern `Paid-only episode N`, where the
    digits `N` are exactly the greedy capture at the leftmost matching position
    of the title (and every such title also matches `Episode N` as a substring,
    so the paid check must come first); titles matching only `Episode N` yield
    the integer value of the leftmost greedy capture after `episode `; titles
    matching neither yield no number. -/
theorem C5_episode_identifier (title : String) :
    (MatchesPaid title ↔ ∃ ds, extract_episode_number title = EpNum.paid ds)
    ∧ (MatchesPaid title → MatchesEpisode title)
    ∧ (∀ ds, extract_episode_number title = EpNum.paid ds →
        ∃ i, LitCapture paidLit (title.data.drop i) ds
          ∧ ∀ j, j < i → ∀ ds', ¬ LitCapture paidLit (title.data.drop j) ds')
    ∧ (¬ MatchesPaid title →
        (MatchesEpisode title ↔ ∃ n, extract_episode_number title = EpNum.num n))
    ∧ (∀ n, extract_episode_number title = EpNum.num n →
        ∃ i ds, n = digitsToNat ds ∧ LitCapture episodeLit (title.data.drop i) ds
          ∧ ∀ j, j < i → ∀ ds', ¬ LitCapture episodeLit (title.data.drop j) ds')
    ∧ (¬ MatchesPaid title → ¬ MatchesEpisode title →
        extract_episode_number title = EpNum.null) := by
  have hpaid_none : ¬ MatchesPaid title →
      reSearch (litDigitsAt paidLit) title.data = none := by
    intro hnp
    cases hq : reSearch (litDigitsAt paidLit) title.data with
    | some ds => exact absurd ((matchesPaid_iff_search title).mpr (by rw [hq]; rfl)) hnp
    | none => rfl
  refine ⟨?_, fun h => matchesPaid_imp_matchesEpisode h, ?_, ?_, ?_, ?_⟩
  · rw [matchesPaid_iff_search]
    unfold extract_episode_number
    cases hp : reSearch (litDigitsAt paidLit) title.data with
    | some ds =>
      simp only [Option.isSome_some]
      exact ⟨fun _ => ⟨ds, rfl⟩, fun _ => trivial⟩
    | none =>
      simp only [Option.isSome_none]
      constructor
      · intro h; exact absurd h (by simp)
      · rintro ⟨ds, hds⟩
        cases he : reSearch (litDigitsAt episodeLit) title.data <;>
          rw [he] at hds <;> exact absurd hds (by simp)
  · intro ds hds
    unfold extract_episode_number at hds
    cases hp : reSearch (litDigitsAt paidLit) title.data with
    | none =>
      rw [hp] at hds
      cases he : reSearch (litDigitsAt episodeLit) title.data <;>
        rw [he] at hds <;> exact absurd hds (by simp)
    | some ds0 =>
      rw [hp] at hds
      have hds2 : EpNum.paid ds0 = EpNum.paid ds := hds
      injection hds2 with hds0
      subst hds0
      obtain ⟨i, hi, hj⟩ := (reSearch_eq_some_iff _ _ _).mp hp
      refine ⟨i, litDigitsAt_eq_some_iff.mp hi, ?_⟩
      intro j hjlt ds' hcap
      have hsome := litDigitsAt_eq_some_iff.mpr hcap
      rw [hj j hjlt] at hsome
      exact absurd hsome (by simp)
  · intro hnp
    rw [matchesEpisode_iff_search]
    unfold extract_episode_number
    rw [hpaid_none hnp]
    cases he : reSearch (litDigitsAt episodeLit) title.data with
    | some ds =>
      simp only [Option.isSome_some]
      exact ⟨fun _ => ⟨digitsToNat ds, rfl⟩, fun _ => trivial⟩
    | none =>
      simp only [Option.isSome_none]
      constructor
      · intro h; exact absurd h (by simp)
      · rintro ⟨n, hn⟩; exact absurd hn (by simp)
  · intro n hn
    unfold extract_episode_number at hn
    cases hp : reSearch (litDigitsAt paidLit) title.data with
    | some ds0 =>
      rw [hp] at hn
      exact absurd (show EpNum.paid ds0 = EpNum.num n from hn) (by simp)
    | none =>
      rw [hp] at hn
      cases he : reSearch (litDigitsAt episodeLit) title.data with
      | none =>
        rw [he] at hn
        exact absurd (show EpNum.null = EpNum.num n from hn) (by simp)
      | some ds0 =>
        rw [he] at hn
        have hn2 : EpNum.num (digitsToNat ds0) = EpNum.num n := hn
        injection hn2 with hn0
        obtain ⟨i, hi, hj⟩ := (reSearch_eq_some_iff _ _ _).mp he
        refine ⟨i, ds0, hn0.symm, litDigitsAt_eq_some_iff.mp hi, ?_⟩
        intro j hjlt ds' hcap
        have hsome := litDigitsAt_eq_some_iff.mpr hcap
        rw [hj j hjlt] at hsome
        exact absurd hsome (by simp)
  · intro hnp hne
    unfold extract_episode_number
    rw [hpaid_none hnp]
    cases he : reSearch (litDigitsAt episodeLit) title.data with
    | some ds =>
      exact absurd ((matchesEpisode_iff_search title).mpr (by rw [he]; rfl)) hne
    | none => rfl

/-- Witness for C5 at concrete titles: the paid title yields exactly the tag
    digits `12` captured from it (with the leftmost-capture description
    obtained by applying the theorem), `"Episode 7"` yields exactly the
    integer 7 captured from it, and a numberless title yields the absent
    identifier. -/
theorem C5_episode_identifier_witness :
    extract_episode_number "Paid-only Episode 12: also Episode 5" = EpNum.paid ['1', '2']
    ∧ (∃ i, LitCapture paidLit ("Paid-only Episode 12: also Episode 5".data.drop i) ['1', '2']
        ∧ ∀ j, j < i →
            ∀ ds', ¬ LitCapture paidLit ("Paid-only Episode 12: also Episode 5".data.drop j) ds')
    ∧ MatchesEpisode "Paid-only Episode 12: also Episode 5"
    ∧ extract_episode_number "Episode 7" = EpNum.num 7
    ∧ (∃ i ds, (7 : Nat) = digitsToNat ds
        ∧ LitCapture episodeLit ("Episode 7".data.drop i) ds
        ∧ ∀ j, j < i → ∀ ds', ¬ LitCapture episodeLit ("Episode 7".data.drop j) ds')
    ∧ extract_episode_number "No numbers here" = EpNum.null :=
  ⟨by decide,
   (C5_episode_identifier "Paid-only Episode 12: also Episode 5").2.2.1 ['1', '2'] (by decide),
   (C5_episode_identifier "Paid-only Episode 12: also Episode 5").2.1 (by decide),
   by decide,
   (C5_episode_identifier "Episode 7").2.2.2.2.1 7 (by decide),
   (C5_episode_identifier "No numbers here").2.2.2.2.2 (by decide) (by decide)⟩

/-!
## Audio fetcher claims
-/

/-- C4 (amended): for every episode with a (non-empty) audio url, if a file
    already exists at the computed cache path, `download_episode` returns that
    path and issues no HTTP request. -/
theorem C4_cache_hit_amended (e : Episode) (fs : List String) (net : Bool)
    (h1 : optStrFalsy e.audio_url = false) (h2 : audio_filename e ∈ fs) :
    download_episode e fs net = ⟨some (audio_filename e), false⟩ := by
  simp [download_episode, h1, h2]

/-- C4 counterexample: for an episode whose feed entry has no audio url, the
    fetcher returns `None` even though its cached audio file exists at the
    computed cache path — refuting the claim for *every* episode. -/
theorem C4_cache_hit_counterexample :
    audio_filename epNoUrl ∈ fsEp5
    ∧ (download_episode epNoUrl fsEp5 true).path ≠ some (audio_filename epNoUrl)
    ∧ (download_episode epNoUrl fsEp5 true).path = none := by
  decide

/-- Witness for C4 (amended) at a concrete cached episode. -/
theorem C4_cache_hit_witness :
    optStrFalsy epWithUrl.audio_url = false
    ∧ audio_filename epWithUrl ∈ fsEp5
    ∧ download_episode epWithUrl fsEp5 true = ⟨some (audio_filename epWithUrl), false⟩ :=
  ⟨by decide, by decide, C4_cache_hit_amended epWithUrl fsEp5 true (by decide) (by decide)⟩

/-- C8 (amended): for every paid-tagged episode with a (non-empty) audio url
    whose new-scheme file is absent but whose legacy zero-padded file exists,
    `download_episode` returns the legacy path without downloading. -/
theorem C8_legacy_fallback_amended (e : Episode) (fs : List String) (net : Bool)
    (ds : List Char) (hp : e.episode_number = EpNum.paid ds)
    (h1 : optStrFalsy e.audio_url = false)
    (h2 : audio_filename e ∉ fs)
    (h3 : legacy_audio_filename ds e.title ∈ fs) :
    download_episode e fs net = ⟨some (legacy_audio_filename ds e.title), false⟩ := by
  simp [download_episode, h1, h2, hp, h3]

/-- C8 counterexample: a paid episode with no audio url is returned as `None`
    even though its legacy file exists and its new-scheme file does not —
    refuting the claim for *every* paid episode. -/
theorem C8_legacy_fallback_counterexample :
    epPaidNoUrl.episode_number = EpNum.paid ['3']
    ∧ legacy_audio_filename ['3'] epPaidNoUrl.title ∈ fsLegacy
    ∧ audio_filename epPaidNoUrl ∉ fsLegacy
    ∧ (download_episode epPaidNoUrl fsLegacy true).path
        ≠ some (legacy_audio_filename ['3'] epPaidNoUrl.title) := by
  decide

/-- Witness for C8 (amended) at a concrete paid episode with a legacy file. -/
theorem C8_legacy_fallback_witness :
    epPaidWithUrl.episode_number = EpNum.paid ['3']
    ∧ optStrFalsy epPaidWithUrl.audio_url = false
    ∧ audio_filename epPaidWithUrl ∉ fsLegacy
    ∧ legacy_audio_filename ['3'] epPaidWithUrl.title ∈ fsLegacy
    ∧ download_episode epPaidWithUrl fsLegacy true
        = ⟨some (legacy_audio_filename ['3'] epPaidWithUrl.title), false⟩ :=
  ⟨by decide, by decide, by decide, by decide,
   C8_legacy_fallback_amended epPaidWithUrl fsLegacy true ['3']
     (by decide) (by decide) (by decide) (by decide)⟩

/-- C10: for every episode whose `audio_url` is absent, `download_episode`
    returns `None` and issues no HTTP request, for every filesystem state —
    in particular even when the cached audio file exists at the computed
    path. -/
theorem C10_no_audio_url_skips (e : Episode) (fs : List String) (net : Bool)
    (h : e.audio_url = none) :
    download_episode e fs net = ⟨none, false⟩ := by
  simp [download_episode, optStrFalsy, h]

/-- Witness for C10: the episode without an audio url is skipped although its
    cached file is present. -/
theorem C10_no_audio_url_witness :
    epNoUrl.audio_url = none
    ∧ audio_filename epNoUrl ∈ fsEp5
    ∧ download_episode epNoUrl fsEp5 true = ⟨none, false⟩ :=
  ⟨rfl, by decide, C10_no_audio_url_skips epNoUrl fsEp5 true rfl⟩

/-!
## Cache filename claims
-/

/-- C3 counterexample: for the numberless title `"Hello World"` the code
    computes `"Hello-World.mp3"`, not the
    `{sanitized-title}_{sanitized-title-capped-50}.mp3` shape
    (`"Hello-World_Hello-World.mp3"`) the claim asserts. -/
theorem C3_unnumbered_filename_counterexample :
    extract_episode_number "Hello World" = EpNum.null
    ∧ audio_filename ⟨"Hello World", EpNum.null, "2024-01-01", some "u", "l"⟩
        = "Hello-World.mp3"
    ∧ ("Hello-World.mp3" : String) ≠ "Hello-World_Hello-World.mp3" := by
  decide

/-- C3 (amended): for every episode without an episode number, the audio cache
    filename is the sanitized, 50-character-capped title followed by `.mp3`
    alone (a number prefix and `_` appear only for numbered episodes). -/
theorem C3_unnumbered_filename_amended (e : Episode)
    (h : e.episode_number = EpNum.null) :
    audio_filename e = safe_title e.title ++ ".mp3" := by
  unfold audio_filename
  rw [h]

/-- Witness for C3 (amended) at the concrete numberless episode. -/
theorem C3_unnumbered_filename_witness :
    (⟨"Hello World", EpNum.null, "2024-01-01", some "u", "l"⟩ : Episode).episode_number
        = EpNum.null
    ∧ audio_filename ⟨"Hello World", EpNum.null, "2024-01-01", some "u", "l"⟩
        = safe_title "Hello World" ++ ".mp3" :=
  ⟨rfl, C3_unnumbered_filename_amended ⟨"Hello World", EpNum.null, "2024-01-01", some "u", "l"⟩ rfl⟩

/-!
## Report sort order (C1)
-/

/-- C1: evaluating the report generator at findings with episode numbers
    `[5, "P3", None, 10]` renders `[None, "P3", 10, 5]` — not the order
    `[10, 5, "P3", None]` that the specification (and the code's own
    comments, "Regular episodes first" / "None goes last") prescribe:
    `reverse=True` makes the numerically largest key tuple `(2, 0)` sort
    first. -/
theorem C1_sort_order_eval :
    ((generate_report [c1Finding (EpNum.num 5), c1Finding (EpNum.paid ['3']),
        c1Finding EpNum.null, c1Finding (EpNum.num 10)]).sorted.map
      (fun f => epNumStr f.episode_number))
      = ["None", "P3", "10", "5"]
    ∧ ((generate_report [c1Finding (EpNum.num 5), c1Finding (EpNum.paid ['3']),
        c1Finding EpNum.null, c1Finding (EpNum.num 10)]).sorted.map
      (fun f => f.episode_number))
      ≠ [EpNum.num 10, EpNum.num 5, EpNum.paid ['3'], EpNum.null] := by
  decide

/-!
## Timestamp resolution (C7)
-/

lemma scanSegments_eq_find (q : String) (segs : List Segment) :
    scanSegments q segs =
      match segs.find? (segMatches q) with
      | some seg => format_timestamp seg.start
      | none => "Unknown" := by
  induction segs with
  | nil => rfl
  | cons seg rest ih =>
    cases hm : segMatches q seg with
    | true => simp [scanSegments, List.find?_cons, hm]
    | false => simp [scanSegments, List.find?_cons, hm, ih]

lemma format_timestamp_45 : format_timestamp 45 = "0:45" := by
  have h1 : pyFloorDiv 45 3600 = 0 := by unfold pyFloorDiv; norm_num
  have h2 : pyMod 45 3600 = 45 := by unfold pyMod; norm_num
  have h5 : pyFloorDiv (pyMod 45 3600) 60 = 0 := by rw [h2]; unfold pyFloorDiv; norm_num
  have h6 : (⌊pyMod 45 60⌋ : ℤ) = 45 := by
    have h4 : pyMod 45 60 = 45 := by unfold pyMod; norm_num
    rw [h4]; norm_num
  rw [format_timestamp, h1, h5, h6]
  decide

lemma format_timestamp_125 : format_timestamp 125 = "2:05" := by
  have h1 : pyFloorDiv 125 3600 = 0 := by unfold pyFloorDiv; norm_num
  have h2 : pyMod 125 3600 = 125 := by unfold pyMod; norm_num
  have h5 : pyFloorDiv (pyMod 125 3600) 60 = 2 := by rw [h2]; unfold pyFloorDiv; norm_num
  have h6 : (⌊pyMod 125 60⌋ : ℤ) = 5 := by
    have h4 : pyMod 125 60 = 5 := by unfold pyMod; norm_num
    rw [h4]; norm_num
  rw [format_timestamp, h1, h5, h6]
  decide

lemma format_timestamp_3725 : format_timestamp 3725 = "1:02:05" := by
  have h1 : pyFloorDiv 3725 3600 = 1 := by unfold pyFloorDiv; norm_num
  have h2 : pyMod 3725 3600 = 125 := by unfold pyMod; norm_num
  have h5 : pyFloorDiv (pyMod 3725 3600) 60 = 2 := by rw [h2]; unfold pyFloorDiv; norm_num
  have h6 : (⌊pyMod 3725 60⌋ : ℤ) = 5 := by
    have h4 : pyMod 3725 60 = 5 := by unfold pyMod; norm_num
    rw [h4]; norm_num
  rw [format_timestamp, h1, h5, h6]
  decide

/-- C7: the timestamp of a finding is the first segment (in order) whose
    lower-cased text contains the lower-cased 50-character quote prefix or is
    contained in it, with its start time formatted as `H:MM:SS` when at least
    one hour and `M:SS` otherwise (45 s → "0:45", 125 s → "2:05",
    3725 s → "1:02:05"); `"Unknown"` results when the quote is empty or no
    segment matches (including a transcript without a `segments` key). -/
theorem C7_timestamp_resolution (t : Transcript) (q : String) :
    (find_timestamp t q =
      match t.segments with
      | none => "Unknown"
      | some segs =>
        if q.data.isEmpty then "Unknown"
        else
          match segs.find? (segMatches q) with
          | some seg => format_timestamp seg.start
          | none => "Unknown")
    ∧ format_timestamp 45 = "0:45"
    ∧ format_timestamp 125 = "2:05"
    ∧ format_timestamp 3725 = "1:02:05" := by
  refine ⟨?_, format_timestamp_45, format_timestamp_125, format_timestamp_3725⟩
  unfold find_timestamp
  cases hseg : t.segments with
  | none => simp
  | some segs =>
    by_cases hq : q.data.isEmpty
    · simp [hq]
    · simp [hq, scanSegments_eq_find]

/-!
## Progress accumulation (C2)
-/

lemma process_episodes_go_saves (outs : List EpOutcome) :
    ∀ p acc, (process_episodes_go p acc outs).saves = cumConcat acc (completedFindings outs) := by
  induction outs with
  | nil => intro p acc; rfl
  | cons o rest ih =>
    intro p acc
    cases o with
    | noAudio => simpa [process_episodes_go, completedFindings] using ih p acc
    | noTranscript => simpa [process_episodes_go, completedFindings] using ih p acc
    | analyzed fs => simp [process_episodes_go, completedFindings, cumConcat, ih]

/-- C2 (amended): the Progress Store loads the existing progress file on
    construction, and after each episode that completes its pipeline the saved
    `results` list is exactly the concatenation of the findings of the
    episodes completed so far *in the current run* — regardless of the loaded
    record, so findings persisted by a previous interrupted run are not
    retained (the driver starts `all_findings` empty and overwrites
    `results`). -/
theorem C2_results_accumulation_amended (p : Progress) (outcomes : List EpOutcome) :
    load_progress (some p) = p
    ∧ (process_episodes p outcomes).saves = cumConcat [] (completedFindings outcomes) :=
  ⟨rfl, process_episodes_go_saves outcomes p []⟩

/-- C2 counterexample: starting from a progress file holding `fOld` from a
    previous interrupted run, the save after the first completed episode
    contains only that episode's finding `fNew` — not `fOld`, refuting the
    claim that saved results include findings persisted by a previous run. -/
theorem C2_results_accumulation_counterexample :
    pPrev.results = [fOld]
    ∧ (process_episodes pPrev [EpOutcome.analyzed [fNew]]).saves = [[fNew]]
    ∧ fOld ∉ ([fNew] : List Finding) := by
  decide

/-!
## Report idempotence (C9)
-/

/-- C9: report generation is idempotent — rendering the findings list left by
    a previous `generate_report` (the list is sorted in place) produces the
    identical sorted list and byte-identical CSV and Markdown output; on an
    unchanged progress file the second run's input is unchanged, so this
    covers both readings of the claim. -/
theorem C9_report_idempotent (findings : List Finding) :
    generate_report (generate_report findings).sorted = generate_report findings := by
  have h : sortFindings (sortFindings findings) = sortFindings findings :=
    List.Sorted.insertionSort_eq (List.sorted_insertionSort findings_rel findings)
  show generate_report (sortFindings findings) = generate_report findings
  unfold generate_report
  rw [h]

/-!
## Model-response JSON extraction (C6)
-/

/-- C6 (amended): the payload is taken from a ```json fence when one matches,
    else from the first `[` (that has a later `]`) through the *last* `]` of
    the response, else it is the literal `"[]"` and the findings are empty;
    a payload that fails to parse as JSON yields an empty findings list (the
    error is caught), and a payload parsing to an array of finding objects
    yields exactly those findings — so the stage never raises. -/
theorem C6_json_extraction_amended (ep : Episode) (t : Transcript) (r : String) :
    (∀ cap, reSearch fencedAt r.data = some cap → extract_json r.data = cap)
    ∧ (reSearch fencedAt r.data = none → ∀ cap, reSearch bareAt r.data = some cap →
        extract_json r.data = cap)
    ∧ (reSearch fencedAt r.data = none → reSearch bareAt r.data = none →
        extract_json r.data = "[]".data ∧ analyze_with_claude ep t r = [])
    ∧ (parseJsonDoc (extract_json r.data) = none → analyze_with_claude ep t r = [])
    ∧ (∀ j raws, parseJsonDoc (extract_json r.data) = some j →
        rawsOfJson j = some raws →
        analyze_with_claude ep t r = raws.map (mkFinding ep t)) := by
  have hana : analyze_with_claude ep t r =
      match parseJsonDoc (extract_json r.data) with
      | none => []
      | some j =>
        match rawsOfJson j with
        | none => []
        | some raws => raws.map (mkFinding ep t) := rfl
  refine ⟨?_, ?_, ?_, ?_, ?_⟩
  · intro cap hc; unfold extract_json; rw [hc]
  · intro hf cap hb; unfold extract_json; rw [hf, hb]
  · intro hf hb
    have hx : extract_json r.data = "[]".data := by unfold extract_json; rw [hf, hb]
    refine ⟨hx, ?_⟩
    rw [hana, hx]
    rfl
  · intro hp; rw [hana, hp]
  · intro j raws hp hr
    rw [hana, hp]
    show (match rawsOfJson j with
      | none => []
      | some raws => raws.map (mkFinding ep t)) = raws.map (mkFinding ep t)
    rw [hr]

/-- C6 counterexample: `rC6bad` contains the bare top-level JSON array
    `[{"topic": "T"}]` (which parses to a findings array), but the greedy
    capture spans to the last `]`, fails to parse, and the caught error makes
    the stage return no findings — refuting "a response with a bare top-level
    `[...]` substring parses to that array". -/
theorem C6_json_extraction_counterexample :
    parseJsonDoc "[\x7b\"topic\": \"T\"\x7d]".data
      = some (Json.arr [Json.obj [("topic".data, Json.str "T".data)]])
    ∧ containsSub "[\x7b\"topic\": \"T\"\x7d]".data rC6bad.data = true
    ∧ reSearch fencedAt rC6bad.data = none
    ∧ parseJsonDoc (extract_json rC6bad.data) = none
    ∧ analyze_with_claude ⟨"E", EpNum.null, "", some "u", ""⟩ ⟨"", none⟩ rC6bad = [] :=
  ⟨rfl, rfl, rfl, rfl, rfl⟩

/-- Witness for C6 (amended): a fenced findings array is extracted and parsed
    into exactly its findings. -/
theorem C6_json_extraction_witness :
    reSearch fencedAt rC6.data
      = some "[\x7b\"topic\": \"Bees\", \"quote\": \"we should cover bees\", \"context\": \"c\"\x7d]".data
    ∧ analyze_with_claude epC6 tC6 rC6
      = [⟨EpNum.num 9, "Episode 9", "Unknown", "Bees", "we should cover bees", "c"⟩] := by
  constructor
  · rfl
  · have h := (C6_json_extraction_amended epC6 tC6 rC6).2.2.2.2
      (Json.arr [Json.obj [("topic".data, Json.str "Bees".data),
        ("quote".data, Json.str "we should cover bees".data),
        ("context".data, Json.str "c".data)]])
      [⟨"Bees", "we should cover bees", "c"⟩] rfl rfl
    rw [h]
    rfl

end SciFi
